import Mathlib

/-!
Verification of the OpenAPI/Swagger converter service
(`src/app/services/openapi-converter.service.ts`).

The embedding models JavaScript strings as `List Char`. JavaScript-specific
primitives (`parseInt`, `split`, truthiness of `&&` / `||`, object key
insertion) are modelled explicitly. Entities built by external collaborators
(the schemas-builder factory, the `utils.lib` helpers, the `url` module and
the status-code / method tables from `route.type`) are not part of the given
source tree; those definitions are modelled from the specification and marked
as such in their doc comments.
-/

/-- JavaScript word character class for the regexes of the converter:
the class written as a-z, A-Z, 0-9 and underscore. -/
def isWordChar (c : Char) : Bool := c.isAlpha || c.isDigit || c = '_'

/-- JavaScript `String.prototype.toLowerCase` on ASCII strings. -/
def jsToLower (l : List Char) : List Char := l.map Char.toLower

/-- Accumulate a decimal digit list into a natural number. -/
def digitsToNat (l : List Char) : Nat := l.foldl (fun a c => a * 10 + (c.toNat - 48)) 0

/-- JavaScript `parseInt(s, 10)`: skip leading whitespace, read an optional
sign and then the longest prefix of decimal digits; `none` models `NaN`. -/
def jsParseInt (s : List Char) : Option Int :=
  let t := s.dropWhile Char.isWhitespace
  match t with
  | '-' :: rest =>
    let ds := rest.takeWhile Char.isDigit
    if ds = [] then none else some (-(digitsToNat ds : Int))
  | '+' :: rest =>
    let ds := rest.takeWhile Char.isDigit
    if ds = [] then none else some ((digitsToNat ds : Int))
  | _ =>
    let ds := t.takeWhile Char.isDigit
    if ds = [] then none else some ((digitsToNat ds : Int))

/-- JavaScript `String.prototype.split` with a single-character separator. -/
def jsSplit (sep : Char) : List Char → List (List Char)
  | [] => [[]]
  | c :: rest =>
    let r := jsSplit sep rest
    if c = sep then [] :: r
    else
      match r with
      | [] => [[c]]
      | x :: xs => (c :: x) :: xs

/-- JavaScript object property write `m[k] = v`: an existing key keeps its
position and gets the new value, a new key is appended. -/
def jsObjInsert {β : Type} (m : List ((List Char) × β)) (k : List Char) (v : β) :
    List ((List Char) × β) :=
  if m.any (fun p => decide (p.1 = k)) then
    m.map (fun p => if p.1 = k then (k, v) else p)
  else m ++ [(k, v)]

/-- JavaScript object property read `m[k]`. -/
def jsObjGet {β : Type} (m : List ((List Char) × β)) (k : List Char) : Option β :=
  match m.find? (fun p => decide (p.1 = k)) with
  | some p => some p.2
  | none => none

/-- JavaScript falsy-or on optional strings: `a || b` where the empty string
and `undefined` are falsy. -/
def jsOrStr (a : Option (List Char)) (b : List Char) : List Char :=
  match a with
  | some s => if s = [] then b else s
  | none => b

/-- Modelled from the spec: `RemoveLeadingSlash` from `src/app/libs/utils.lib`
(not part of the given sources) — the string minus one leading slash. -/
def removeLeadingSlash : List Char → List Char
  | '/' :: rest => rest
  | l => l

/-- Modelled from the spec: the `.path` component delivered by the Node `url`
module's `parse` (external collaborator). For an absolute URL of the shape
scheme://authority/path the path (with query) starts at the first slash after
the authority; an absolute URL without any slash after the authority has a
null path (`none`); a string without "//" is all path. -/
def afterAuthorityMarker : List Char → Option (List Char)
  | [] => none
  | '/' :: '/' :: rest => some rest
  | _ :: rest => afterAuthorityMarker rest

/-- Modelled from the spec: `urlParse(s).path`, see `afterAuthorityMarker`. -/
def urlPath (s : List Char) : Option (List Char) :=
  match afterAuthorityMarker s with
  | some t =>
    match t.dropWhile (fun c => decide (c ≠ '/')) with
    | [] => none
    | p => some p
  | none => some s

/-!
## The path translator (`parametersReplace` and the export-side regexes)

`expGo` models `str.replace(/:([a-zA-Z0-9_]+)/g, (braces around the name))`
used at export, `impGo` models `parametersReplace(str, PATH_PARAMETERS)`,
i.e. `str.replace(/{(\w+)}/gi, colon-name)`, and `matGo` models
`str.match(/:[a-zA-Z0-9_]+/g)` (returning the parameter names, i.e. each
match minus its leading colon). All three are written with explicit fuel so
that they are structurally recursive; the wrappers start the fuel at the
input length, which the invariant proofs show is always sufficient.
-/

/-- Fuel-driven scanner for replacing each `:name` by the braced name. -/
def expGo : Nat → List Char → List Char
  | 0, _ => []
  | _ + 1, [] => []
  | fuel + 1, c :: rest =>
    if c = ':' ∧ rest.takeWhile isWordChar ≠ [] then
      '{' :: rest.takeWhile isWordChar ++ '}' :: expGo fuel (rest.dropWhile isWordChar)
    else
      c :: expGo fuel rest

/-- Export direction of the path translator: replace every `:name`
(name = one or more alphanumerics/underscore) by the braced name. -/
def exportReplace (l : List Char) : List Char := expGo l.length l

/-- Fuel-driven scanner replacing each braced `name` by `:name`. -/
def impGo : Nat → List Char → List Char
  | 0, _ => []
  | _ + 1, [] => []
  | fuel + 1, c :: rest =>
    if c = '{' ∧ rest.takeWhile isWordChar ≠ [] ∧
        (rest.dropWhile isWordChar).head? = some '}' then
      ':' :: rest.takeWhile isWordChar ++ impGo fuel (rest.dropWhile isWordChar).tail
    else
      c :: impGo fuel rest

/-- Import direction of the path translator
(`parametersReplace(str, PATH_PARAMETERS)`): replace every braced `name`
by `:name`. -/
def importReplace (l : List Char) : List Char := impGo l.length l

/-- Fuel-driven scanner for the export-side parameter match. -/
def matGo : Nat → List Char → List (List Char)
  | 0, _ => []
  | _ + 1, [] => []
  | fuel + 1, c :: rest =>
    if c = ':' ∧ rest.takeWhile isWordChar ≠ [] then
      rest.takeWhile isWordChar :: matGo fuel (rest.dropWhile isWordChar)
    else
      matGo fuel rest

/-- The path parameter names matched in an internal endpoint by
`route.endpoint.match` with the colon-name pattern (each match minus the
leading colon, in order, with repetitions). -/
def exportMatches (l : List Char) : List (List Char) := matGo l.length l

/-!
## Internal data model (`Environment`, `Route`, `RouteResponse`, `Header`)

`Option` on `Environment.endpointPrefix` records that the JavaScript field
can end up holding `undefined` (modelled as `none`).
-/

structure Header where
  key : List Char
  value : List Char
deriving DecidableEq

structure RouteResponse where
  statusCode : Int
  label : List Char
  body : List Char
  headers : List Header
deriving DecidableEq

structure Route where
  method : List Char
  endpoint : List Char
  documentation : List Char
  responses : List RouteResponse
deriving DecidableEq

structure Environment where
  name : List Char
  port : Int
  endpointPrefix : Option (List Char)
  https : Bool
  headers : List Header
  routes : List Route
deriving DecidableEq

/-- Modelled from the spec: `SchemasBuilderService.buildHeader` (factory
collaborator, not part of the given sources) — a header with the given key
and value. -/
def buildHeader (k v : List Char) : Header := ⟨k, v⟩

/-- Modelled from the spec: `SchemasBuilderService.buildRouteResponse` —
factory default response (status 200, empty label and body). -/
def buildRouteResponse : RouteResponse :=
  { statusCode := 200, label := [], body := [], headers := [] }

/-- Modelled from the spec: `SchemasBuilderService.buildRoute` — factory
default route. -/
def buildRoute : Route :=
  { method := "get".data, endpoint := [], documentation := [], responses := [] }

/-- Modelled from the spec: `SchemasBuilderService.buildEnvironment` —
factory default environment (string-valued empty endpoint prefix, default
port 3000, http). -/
def buildEnvironment : Environment :=
  { name := "New environment".data, port := 3000, endpointPrefix := some [],
    https := false,
    headers := [buildHeader ("Content-Type".data) ("application/json".data)],
    routes := [] }

/-- Modelled from the spec: the `methods` whitelist from
`src/app/types/route.type` (not part of the given sources): the lowercase
HTTP methods the importer recognizes. -/
def methods : List (List Char) :=
  ["get".data, "post".data, "put".data, "patch".data, "delete".data,
   "head".data, "options".data]

/-- Modelled from the spec: the codes of the `statusCodes` table from
`src/app/types/route.type` (not part of the given sources): the fixed
enumerated set of supported integer HTTP status codes. -/
def statusCodes : List Int :=
  [100, 101, 102, 103,
   200, 201, 202, 203, 204, 205, 206, 207, 208, 226,
   300, 301, 302, 303, 304, 305, 306, 307, 308,
   400, 401, 402, 403, 404, 405, 406, 407, 408, 409, 410, 411, 412, 413,
   414, 415, 416, 417, 418, 421, 422, 423, 424, 425, 426, 428, 429, 431,
   444, 451, 499,
   500, 501, 502, 503, 504, 505, 506, 507, 508, 510, 511]

/-!
## Parsed document model

The shapes of a dereferenced Swagagger 2 / OpenAPI 3 document, reduced to the
fields the converter reads. Objects iterated with `Object.keys` are modelled
as association lists in enumeration order.
-/

structure OAServer where
  url : List Char
  variablesDecl : Option (List ((List Char) × (List Char)))
deriving DecidableEq

structure OAResponse where
  description : Option (List Char)
  headersDecl : Option (List (List Char))
  content : Option (List (List Char))
deriving DecidableEq

structure OAOperation where
  summary : Option (List Char)
  description : Option (List Char)
  responses : List ((List Char) × OAResponse)
  produces : Option (List (List Char))
deriving DecidableEq

structure OADocument where
  swaggerField : Option (List Char)
  openapiField : Option (List Char)
  host : Option (List Char)
  basePath : Option (List Char)
  infoTitle : Option (List Char)
  servers : Option (List OAServer)
  paths : List ((List Char) × List ((List Char) × OAOperation))
deriving DecidableEq

inductive SpecVersion
  | swagger
  | openapiV3
deriving DecidableEq

/-- Swagger type guard (`isSwagger`): a `swagger` field is present. -/
def isSwagger (doc : OADocument) : Bool := (OADocument.swaggerField doc).isSome

/-- OpenAPI v3 type guard (`isOpenAPIV3`): an `openapi` field is present and
starts with "3.". -/
def isOpenAPIV3 (doc : OADocument) : Bool :=
  match OADocument.openapiField doc with
  | some s => List.isPrefixOf ("3.".data) s
  | none => false

/-- `parametersReplace(str, SERVER_VARIABLES, vars)` with fuel: replace each
braced `name` by the declared default of the server variable `name`; a
reference to a missing variable (or a missing variables object) throws a
`TypeError`, modelled as `Except.error`. -/
def svGo (vars : Option (List ((List Char) × (List Char)))) :
    Nat → List Char → Except (List Char) (List Char)
  | 0, _ => Except.ok []
  | _ + 1, [] => Except.ok []
  | fuel + 1, c :: rest =>
    if c = '{' ∧ rest.takeWhile isWordChar ≠ [] ∧
        (rest.dropWhile isWordChar).head? = some '}' then
      match vars with
      | none => Except.error ("TypeError".data)
      | some vs =>
        match jsObjGet vs (rest.takeWhile isWordChar) with
        | none => Except.error ("TypeError".data)
        | some d =>
          Except.map (fun t => d ++ t) (svGo vars fuel (rest.dropWhile isWordChar).tail)
    else
      Except.map (fun t => c :: t) (svGo vars fuel rest)

/-- `parametersReplace(str, SERVER_VARIABLES, vars)`. -/
def serverVarsReplace (s : List Char)
    (vars : Option (List ((List Char) × (List Char)))) :
    Except (List Char) (List Char) :=
  svGo vars s.length s

/-!
## Import (`createRoutes`, `buildResponseHeaders`, `convertFrom…`)
-/

/-- `buildResponseHeaders`: a Content-Type header defaulting to
application/json, overridden by the first declared content type when the
declared list is non-empty and does not include application/json, followed by
one empty header per declared response-header name. -/
def buildResponseHeaders (contentTypes : Option (List (List Char)))
    (responseHeaders : Option (List (List Char))) : List Header :=
  let ct0 := buildHeader ("Content-Type".data) ("application/json".data)
  let ct :=
    match contentTypes with
    | some cs =>
      if cs ≠ [] ∧ ¬ cs.contains ("application/json".data) then
        { ct0 with value := cs.headI }
      else ct0
    | none => ct0
  match responseHeaders with
  | some hs => ct :: hs.map (fun h => buildHeader h [])
  | none => [ct]

/-- One imported response (the object pushed in the `responses` loop of
`createRoutes`): status from `parseInt` of the key, label from the declared
description, headers from `buildResponseHeaders` with the version-specific
content types (`produces` for Swagger, the keys of `content` for v3). -/
def mkImportedResponse (v : SpecVersion) (op : OAOperation) (resp : OAResponse)
    (code : Int) : RouteResponse :=
  let cts : Option (List (List Char)) :=
    match v with
    | SpecVersion.swagger => OAOperation.produces op
    | SpecVersion.openapiV3 => some ((OAResponse.content resp).getD [])
  { buildRouteResponse with
    body := [],
    statusCode := code,
    label := jsOrStr (OAResponse.description resp) [],
    headers := buildResponseHeaders cts (OAResponse.headersDecl resp) }

/-- The declared responses of an operation that survive status-code
filtering: a key is kept exactly when `parseInt(key, 10)` hits a code of the
`statusCodes` table. -/
def keptResponses (v : SpecVersion) (op : OAOperation) : List RouteResponse :=
  (OAOperation.responses op).filterMap (fun kr =>
    match jsParseInt kr.1 with
    | none => none
    | some n =>
      if statusCodes.contains n then some (mkImportedResponse v op kr.2 n)
      else none)

/-- The response list of an imported route: the surviving declared responses,
or the synthesized default response (headers exactly Content-Type:
application/json) when none survive. -/
def opRouteResponses (v : SpecVersion) (op : OAOperation) : List RouteResponse :=
  let k := keptResponses v op
  if k = [] then
    [{ buildRouteResponse with
       headers := [buildHeader ("Content-Type".data) ("application/json".data)] }]
  else k

/-- The endpoint computation of `createRoutes`: translate braced parameters
to colon form and strip the leading slash. -/
def importEndpoint (routePath : List Char) : List Char :=
  removeLeadingSlash (importReplace routePath)

/-- One imported route (the object pushed in `createRoutes`). -/
def mkRoute (v : SpecVersion) (routePath routeMethod : List Char)
    (op : OAOperation) : Route :=
  { buildRoute with
    documentation := jsOrStr (OAOperation.summary op)
      (jsOrStr (OAOperation.description op) []),
    method := routeMethod,
    endpoint := importEndpoint routePath,
    responses := opRouteResponses v op }

/-- `createRoutes`: one route per path entry and per method key contained in
the `methods` whitelist (exact `Array.prototype.includes` comparison). -/
def createRoutes (doc : OADocument) (v : SpecVersion) : List Route :=
  (OADocument.paths doc).foldl (fun acc pi =>
    pi.2.foldl (fun acc2 pr =>
      if methods.contains pr.1 then acc2 ++ [mkRoute v pi.1 pr.1 pr.2]
      else acc2) acc) []

/-- Swagger port extraction:
`parsedAPI.host && parseInt(parsedAPI.host.split(':')[1], 10) || default`. -/
def swaggerPort (host : Option (List Char)) (dflt : Int) : Int :=
  match host with
  | none => dflt
  | some h =>
    if h = [] then dflt
    else
      match (jsSplit ':' h)[1]? with
      | none => dflt
      | some s =>
        match jsParseInt s with
        | none => dflt
        | some n => if n = 0 then dflt else n

/-- `convertFromSwagger`. -/
def convertFromSwagger (doc : OADocument) : Environment :=
  let base := buildEnvironment
  { base with
    port := swaggerPort (OADocument.host doc) (Environment.port base),
    endpointPrefix :=
      match OADocument.basePath doc with
      | some bp =>
        if bp = [] then Environment.endpointPrefix base
        else some (removeLeadingSlash bp)
      | none => Environment.endpointPrefix base,
    name := jsOrStr (OADocument.infoTitle doc) ("Swagger import".data),
    routes := createRoutes doc SpecVersion.swagger }

/-- The endpoint-prefix computation of `convertFromOpenAPIV3`:
`server && server[0] && server[0].url && RemoveLeadingSlash(urlParse(
parametersReplace(server[0].url, SERVER_VARIABLES, vars)).path)`. The
falsy short-circuit values propagate (`undefined` as `none`, the empty
string as `some []`); a null parsed path makes `RemoveLeadingSlash` throw. -/
def v3EndpointPrefixE (doc : OADocument) :
    Except (List Char) (Option (List Char)) :=
  match OADocument.servers doc with
  | none => Except.ok none
  | some [] => Except.ok none
  | some (srv :: _) =>
    if OAServer.url srv = [] then Except.ok (some [])
    else
      match serverVarsReplace (OAServer.url srv) (OAServer.variablesDecl srv) with
      | Except.error m => Except.error m
      | Except.ok u =>
        match urlPath u with
        | none => Except.error ("TypeError".data)
        | some p => Except.ok (some (removeLeadingSlash p))

/-- `convertFromOpenAPIV3`; `Except.error` models an exception escaping the
conversion (to be caught at the `import` boundary). -/
def convertFromOpenAPIV3 (doc : OADocument) : Except (List Char) Environment :=
  let base := buildEnvironment
  match v3EndpointPrefixE doc with
  | Except.error m => Except.error m
  | Except.ok pfx =>
    Except.ok
      { base with
        endpointPrefix := pfx,
        name := jsOrStr (OADocument.infoTitle doc) ("OpenAPI import".data),
        routes := createRoutes doc SpecVersion.openapiV3 }

inductive Severity
  | warning
  | error
deriving DecidableEq

structure Toast where
  severity : Severity
  message : List Char
deriving DecidableEq

/-- Modelled from the spec: `Errors.IMPORT_WRONG_VERSION` from the errors
enum (not part of the given sources). -/
def importWrongVersionMsg : List Char := "IMPORT_WRONG_VERSION".data

/-- Modelled from the spec: `Errors.IMPORT_ERROR` from the errors enum. -/
def importErrorMsg : List Char := "IMPORT_ERROR".data

/-- The outcome visible to a caller of `import`: a possibly-absent
environment, the notifications raised, and the error log lines written. -/
structure ImportResult where
  result : Option Environment
  toasts : List Toast
  logs : List (List Char)
deriving DecidableEq

/-- The body of `import` inside its `try`: the parse result of the external
dereferencer is the input (its rejection is a thrown error), then the
version-guard dispatch. `Except.error` models an exception reaching the
`catch`. -/
def importBody (parsed : Except (List Char) OADocument) :
    Except (List Char) (Option Environment × List Toast) :=
  match parsed with
  | Except.error m => Except.error m
  | Except.ok doc =>
    if isSwagger doc then
      Except.ok (some (convertFromSwagger doc), [])
    else if isOpenAPIV3 doc then
      match convertFromOpenAPIV3 doc with
      | Except.error m => Except.error m
      | Except.ok env => Except.ok (some env, [])
    else
      Except.ok (none, [Toast.mk Severity.warning importWrongVersionMsg])

/-- The public `import` entry point: the `try`/`catch` converts any thrown
error into an error toast plus an error log line and an undefined result. -/
def importModel (parsed : Except (List Char) OADocument) : ImportResult :=
  match importBody parsed with
  | Except.ok (r, ts) => { result := r, toasts := ts, logs := [] }
  | Except.error m =>
    { result := none,
      toasts := [Toast.mk Severity.error (importErrorMsg ++ (": ".data) ++ m)],
      logs := [("Error while importing OpenAPI file: ".data) ++ m] }

/-!
## Export (`convertToOpenAPIV3`)
-/

structure OutParameter where
  name : List Char
  paramIn : List Char
  schemaType : List Char
  required : Bool
deriving DecidableEq

structure OutHeaderVal where
  schemaType : List Char
  exampleVal : List Char
deriving DecidableEq

structure OutResponse where
  description : List Char
  content : List (List Char)
  headers : List ((List Char) × OutHeaderVal)
deriving DecidableEq

structure OutOperation where
  description : List Char
  responses : List ((List Char) × OutResponse)
  parameters : Option (List OutParameter)
deriving DecidableEq

structure OutDocument where
  openapiVer : List Char
  title : List Char
  infoVersion : List Char
  serverUrl : List Char
  paths : List ((List Char) × List ((List Char) × OutOperation))
deriving DecidableEq

/-- Modelled from the spec: `GetRouteResponseContentType` from
`src/app/libs/utils.lib` (not part of the given sources) — the effective
content type of a response: environment headers and response headers merged,
the last Content-Type header wins; unresolvable when absent or empty. -/
def getRouteResponseContentType (env : Environment) (r : RouteResponse) :
    Option (List Char) :=
  let merged := (Environment.headers env) ++ (RouteResponse.headers r)
  let cts := merged.filter (fun h =>
    decide (jsToLower (Header.key h) = ("content-type".data)))
  match cts.getLast? with
  | some h => if Header.value h = [] then none else some (Header.value h)
  | none => none

/-- The exported `headers` object of one response: every header of
`environment.headers` followed by the response's own headers, skipping any
whose key lowercases to content-type, written into a JavaScript object
(duplicate keys overwrite). -/
def exportHeadersObject (envHeaders respHeaders : List Header) :
    List ((List Char) × OutHeaderVal) :=
  (envHeaders ++ respHeaders).foldl (fun hs h =>
    if jsToLower (Header.key h) ≠ ("content-type".data) then
      jsObjInsert hs (Header.key h) ⟨"string".data, Header.value h⟩
    else hs) []

/-- The decimal key of a status code (`statusCode.toString()`). -/
def intKey (n : Int) : List Char := (toString n).data

/-- One exported response object. -/
def mkOutResponse (env : Environment) (r : RouteResponse) : OutResponse :=
  { description := RouteResponse.label r,
    content :=
      match getRouteResponseContentType env r with
      | some ct => [ct]
      | none => [],
    headers := exportHeadersObject (Environment.headers env) (RouteResponse.headers r) }

/-- The exported `responses` object of a route (reduce over the responses,
keyed by the decimal status code). -/
def responsesObject (env : Environment) (rs : List RouteResponse) :
    List ((List Char) × OutResponse) :=
  rs.foldl (fun acc r => jsObjInsert acc (intKey (RouteResponse.statusCode r))
    (mkOutResponse env r)) []

/-- The exported OpenAPI path key of a route endpoint: a slash followed by
the endpoint with every colon parameter braced (the branch without matches
prefixes the endpoint unchanged). -/
def exportPathKey (endpoint : List Char) : List Char :=
  if exportMatches endpoint = [] then '/' :: endpoint
  else '/' :: exportReplace endpoint

/-- The exported `parameters` array of an operation: absent when the
endpoint has no parameter match, else one entry per match. -/
def opParameters (endpoint : List Char) : Option (List OutParameter) :=
  if exportMatches endpoint = [] then none
  else some ((exportMatches endpoint).map (fun nm =>
    OutParameter.mk nm ("path".data) ("string".data) true))

/-- One exported operation object. -/
def mkOperation (env : Environment) (route : Route) : OutOperation :=
  { description := Route.documentation route,
    responses := responsesObject env (Route.responses route),
    parameters := opParameters (Route.endpoint route) }

/-- `convertToOpenAPIV3`: the assembled OpenAPI 3.0.0 document. -/
def convertToOpenAPIV3 (env : Environment) : OutDocument :=
  { openapiVer := "3.0.0".data,
    title := Environment.name env,
    infoVersion := "1.0.0".data,
    serverUrl :=
      (if Environment.https env then "https".data else "http".data) ++
        ("://localhost:".data) ++ (toString (Environment.port env)).data ++
        ('/' :: (Environment.endpointPrefix env).getD ("undefined".data)),
    paths := (Environment.routes env).foldl (fun ps route =>
      let key := exportPathKey (Route.endpoint route)
      let methodsObj := (jsObjGet ps key).getD []
      jsObjInsert ps key
        (jsObjInsert methodsObj (Route.method route) (mkOperation env route))) [] }

/-- The outcome visible to a caller of `export`. -/
structure ExportResult where
  result : Option OutDocument
  toasts : List Toast
  logs : List (List Char)
deriving DecidableEq

/-- The public `export` entry point: the document construction is total, the
external validation failure is only logged, so the result is always present
and no toast is raised. -/
def exportModel (env : Environment) : ExportResult :=
  { result := some (convertToOpenAPIV3 env), toasts := [], logs := [] }

/-!
## Specification-side value descriptions and concrete sample inputs
-/

/-- The Content-Type value described by the specification for
`buildResponseHeaders`: application/json when the declared content-type list
is absent, empty or contains application/json, otherwise the first entry of
the list. -/
def specContentTypeValue (contentTypes : Option (List (List Char))) : List Char :=
  match contentTypes with
  | none => "application/json".data
  | some l =>
    if l = [] ∨ l.contains ("application/json".data) then "application/json".data
    else l.headI

/-- The filter used when relating the exported headers object to the plain
header concatenation: keep a header whose key does not lowercase to
content-type. -/
def keepHeader (h : Header) : Bool :=
  decide (jsToLower (Header.key h) ≠ ("content-type".data))

/-- A declared response with only a description. -/
def respHello : OAResponse :=
  { description := some ("Hello".data), headersDecl := none, content := none }

/-- A declared response with no fields set. -/
def respPlain : OAResponse :=
  { description := none, headersDecl := none, content := none }

/-- An operation whose only declared response key is the range key 2XX. -/
def opRange : OAOperation :=
  { summary := none, description := none,
    responses := [(("2XX".data), respPlain)], produces := none }

/-- An operation with the single response key 200abc. -/
def op200abc : OAOperation :=
  { summary := none, description := none,
    responses := [(("200abc".data), respHello)], produces := none }

/-- An operation with no declared responses. -/
def opNoResponses : OAOperation :=
  { summary := none, description := none, responses := [], produces := none }

/-- An OpenAPI-3 document whose only path carries the uppercase method key
GET. -/
def docUpperGET : OADocument :=
  { swaggerField := none, openapiField := some ("3.0.0".data), host := none,
    basePath := none, infoTitle := some ("T".data), servers := none,
    paths := [(("p".data), [(("GET".data), opNoResponses)])] }

/-- An OpenAPI-3 document without a servers array. -/
def docNoServers : OADocument :=
  { swaggerField := none, openapiField := some ("3.0.0".data), host := none,
    basePath := none, infoTitle := some ("T".data), servers := none,
    paths := [] }

/-- An OpenAPI-3 document with one server entry carrying a plain URL. -/
def docOneServer : OADocument :=
  { swaggerField := none, openapiField := some ("3.0.0".data), host := none,
    basePath := none, infoTitle := some ("T".data),
    servers := some [{ url := "http://example.com/api/v1".data,
                       variablesDecl := none }],
    paths := [] }

/-- A document carrying neither a swagger nor an openapi marker. -/
def docUnversioned : OADocument :=
  { swaggerField := none, openapiField := none, host := none,
    basePath := none, infoTitle := none, servers := none, paths := [] }

/-- A Swagger document whose host declares port 0. -/
def docHostPort0 : OADocument :=
  { swaggerField := some ("2.0".data), openapiField := none,
    host := some ("h:0".data), basePath := none, infoTitle := none,
    servers := none, paths := [] }

/-- A Swagger document whose host declares port 8443. -/
def docHost8443 : OADocument :=
  { swaggerField := some ("2.0".data), openapiField := none,
    host := some ("api.example.com:8443".data), basePath := none,
    infoTitle := none, servers := none, paths := [] }

/-- A Swagger document whose host declares no port. -/
def docHostNoPort : OADocument :=
  { swaggerField := some ("2.0".data), openapiField := none,
    host := some ("api.example.com".data), basePath := none,
    infoTitle := none, servers := none, paths := [] }

/-- A Swagger document whose host declares the non-numeric port segment
abc. -/
def docHostNaN : OADocument :=
  { swaggerField := some ("2.0".data), openapiField := none,
    host := some ("h:abc".data), basePath := none,
    infoTitle := none, servers := none, paths := [] }

/-!
## Helper lemmas about the scanners
-/

theorem impGo_nil (m : Nat) : impGo m [] = [] := by
  cases m <;> rfl

theorem expGo_succ_cons (m : Nat) (c : Char) (rest : List Char) :
    expGo (m + 1) (c :: rest) =
      if c = ':' ∧ rest.takeWhile isWordChar ≠ [] then
        '{' :: rest.takeWhile isWordChar ++ '}' ::
          expGo m (rest.dropWhile isWordChar)
      else
        c :: expGo m rest := rfl

theorem impGo_succ_cons (m : Nat) (c : Char) (rest : List Char) :
    impGo (m + 1) (c :: rest) =
      if c = '{' ∧ rest.takeWhile isWordChar ≠ [] ∧
          (rest.dropWhile isWordChar).head? = some '}' then
        ':' :: rest.takeWhile isWordChar ++ impGo m (rest.dropWhile isWordChar).tail
      else
        c :: impGo m rest := rfl

theorem matGo_succ_cons (m : Nat) (c : Char) (rest : List Char) :
    matGo (m + 1) (c :: rest) =
      if c = ':' ∧ rest.takeWhile isWordChar ≠ [] then
        rest.takeWhile isWordChar :: matGo m (rest.dropWhile isWordChar)
      else
        matGo m rest := rfl

theorem length_dropWhile_le (p : Char → Bool) :
    ∀ l : List Char, (List.dropWhile p l).length ≤ l.length := by
  intro l
  induction l with
  | nil => simp [List.dropWhile]
  | cons a t ih =>
    rw [List.dropWhile_cons]
    by_cases h : p a = true
    · simp only [h, if_true, List.length_cons]
      omega
    · simp [h]

theorem mem_dropWhile_mem (p : Char → Bool) {c : Char} :
    ∀ l : List Char, c ∈ List.dropWhile p l → c ∈ l := by
  intro l
  induction l with
  | nil => simp [List.dropWhile]
  | cons a t ih =>
    rw [List.dropWhile_cons]
    by_cases h : p a = true
    · simp only [h, if_true]
      intro hm
      exact List.mem_cons_of_mem a (ih hm)
    · simp [h]

theorem mem_takeWhile_pred (p : Char → Bool) {c : Char} :
    ∀ l : List Char, c ∈ List.takeWhile p l → p c = true := by
  intro l
  induction l with
  | nil => simp [List.takeWhile]
  | cons a t ih =>
    rw [List.takeWhile_cons]
    by_cases h : p a = true
    · simp only [h, if_true, List.mem_cons]
      rintro (rfl | hm)
      · exact h
      · exact ih hm
    · simp [h]

theorem takeWhile_all_append (p : Char → Bool) (l₁ l₂ : List Char)
    (h : ∀ c ∈ l₁, p c = true) :
    List.takeWhile p (l₁ ++ l₂) = l₁ ++ List.takeWhile p l₂ := by
  induction l₁ with
  | nil => simp
  | cons a t ih =>
    have ha : p a = true := h a (List.mem_cons_self a t)
    simp only [List.cons_append, List.takeWhile_cons, ha, if_true]
    rw [ih (fun c hc => h c (List.mem_cons_of_mem a hc))]

theorem dropWhile_all_append (p : Char → Bool) (l₁ l₂ : List Char)
    (h : ∀ c ∈ l₁, p c = true) :
    List.dropWhile p (l₁ ++ l₂) = List.dropWhile p l₂ := by
  induction l₁ with
  | nil => simp
  | cons a t ih =>
    have ha : p a = true := h a (List.mem_cons_self a t)
    simp only [List.cons_append, List.dropWhile_cons, ha, if_true]
    exact ih (fun c hc => h c (List.mem_cons_of_mem a hc))

/-- Round trip of the fuel-driven scanners: re-importing an exported string
restores the original, provided the original contains no literal braces. -/
theorem impGo_expGo : ∀ (fuel : Nat) (l : List Char), l.length ≤ fuel →
    (∀ c ∈ l, c ≠ '{') → (∀ c ∈ l, c ≠ '}') →
    ∀ m : Nat, (expGo fuel l).length ≤ m → impGo m (expGo fuel l) = l := by
  intro fuel
  induction fuel with
  | zero =>
    intro l hl _ _ m _
    have : l = [] := List.eq_nil_of_length_eq_zero (Nat.le_zero.mp hl)
    subst this
    simpa [expGo] using impGo_nil m
  | succ fuel ih =>
    intro l hl h1 h2 m hm
    match l with
    | [] => simpa [expGo] using impGo_nil m
    | c :: rest =>
      by_cases hg : c = ':' ∧ rest.takeWhile isWordChar ≠ []
      · rw [expGo_succ_cons, if_pos hg] at hm ⊢
        rw [List.cons_append] at hm ⊢
        have htw_all : ∀ d ∈ rest.takeWhile isWordChar, isWordChar d = true :=
          fun d hd => mem_takeWhile_pred isWordChar rest hd
        have hbr : isWordChar '}' = false := by decide
        match m with
        | 0 => simp at hm
        | m + 1 =>
          have tw_eq : List.takeWhile isWordChar (rest.takeWhile isWordChar ++
              '}' :: expGo fuel (rest.dropWhile isWordChar)) =
              rest.takeWhile isWordChar := by
            rw [takeWhile_all_append isWordChar _ _ htw_all]
            rw [List.takeWhile_cons]
            simp [hbr]
          have dw_eq : List.dropWhile isWordChar (rest.takeWhile isWordChar ++
              '}' :: expGo fuel (rest.dropWhile isWordChar)) =
              '}' :: expGo fuel (rest.dropWhile isWordChar) := by
            rw [dropWhile_all_append isWordChar _ _ htw_all]
            rw [List.dropWhile_cons]
            simp [hbr]
          have hguard : ('{' : Char) = '{' ∧
              List.takeWhile isWordChar (rest.takeWhile isWordChar ++
                '}' :: expGo fuel (rest.dropWhile isWordChar)) ≠ [] ∧
              (List.dropWhile isWordChar (rest.takeWhile isWordChar ++
                '}' :: expGo fuel (rest.dropWhile isWordChar))).head? = some '}' := by
            refine ⟨rfl, ?_, ?_⟩
            · rw [tw_eq]; exact hg.2
            · rw [dw_eq]; rfl
          rw [impGo_succ_cons, if_pos hguard, tw_eq, dw_eq]
          simp only [List.tail_cons]
          have hrest_len : rest.length ≤ fuel := by
            simpa using hl
          have hdw_len : (rest.dropWhile isWordChar).length ≤ fuel :=
            le_trans (length_dropWhile_le isWordChar rest) hrest_len
          have hdw_mem1 : ∀ d ∈ rest.dropWhile isWordChar, d ≠ '{' := fun d hd =>
            h1 d (List.mem_cons_of_mem c (mem_dropWhile_mem isWordChar rest hd))
          have hdw_mem2 : ∀ d ∈ rest.dropWhile isWordChar, d ≠ '}' := fun d hd =>
            h2 d (List.mem_cons_of_mem c (mem_dropWhile_mem isWordChar rest hd))
          have hE_len : (expGo fuel (rest.dropWhile isWordChar)).length ≤ m := by
            simp only [List.length_cons, List.length_append] at hm
            omega
          rw [ih (rest.dropWhile isWordChar) hdw_len hdw_mem1 hdw_mem2 m hE_len]
          rw [List.cons_append, List.takeWhile_append_dropWhile, hg.1]
      · rw [expGo_succ_cons, if_neg hg] at hm ⊢
        match m with
        | 0 => simp at hm
        | m + 1 =>
          have hc : c ≠ '{' := h1 c (List.mem_cons_self c rest)
          have hguard : ¬ (c = '{' ∧
              (expGo fuel rest).takeWhile isWordChar ≠ [] ∧
              (List.dropWhile isWordChar (expGo fuel rest)).head? = some '}') :=
            fun h => hc h.1
          rw [impGo_succ_cons, if_neg hguard]
          have hrest_len : rest.length ≤ fuel := by simpa using hl
          have hmem1 : ∀ d ∈ rest, d ≠ '{' := fun d hd =>
            h1 d (List.mem_cons_of_mem c hd)
          have hmem2 : ∀ d ∈ rest, d ≠ '}' := fun d hd =>
            h2 d (List.mem_cons_of_mem c hd)
          have hE_len : (expGo fuel rest).length ≤ m := by
            simp only [List.length_cons] at hm
            omega
          rw [ih rest hrest_len hmem1 hmem2 m hE_len]

/-- When the parameter match finds nothing, the export replacement leaves
the string unchanged. -/
theorem expGo_of_matGo_nil : ∀ (fuel : Nat) (l : List Char), l.length ≤ fuel →
    matGo fuel l = [] → expGo fuel l = l := by
  intro fuel
  induction fuel with
  | zero =>
    intro l hl _
    have : l = [] := List.eq_nil_of_length_eq_zero (Nat.le_zero.mp hl)
    subst this
    rfl
  | succ fuel ih =>
    intro l hl hmat
    match l with
    | [] => rfl
    | c :: rest =>
      by_cases hg : c = ':' ∧ rest.takeWhile isWordChar ≠ []
      · rw [matGo_succ_cons, if_pos hg] at hmat
        exact absurd hmat (List.cons_ne_nil _ _)
      · rw [matGo_succ_cons, if_neg hg] at hmat
        rw [expGo_succ_cons, if_neg hg]
        have hrest_len : rest.length ≤ fuel := by simpa using hl
        rw [ih rest hrest_len hmat]

/-- The exported path key is always the slash-prefixed export replacement of
the endpoint (the no-parameter branch of the source concatenates the
unchanged endpoint, on which the replacement is the identity). -/
theorem exportPathKey_eq (e : List Char) :
    exportPathKey e = '/' :: exportReplace e := by
  unfold exportPathKey
  by_cases hm : exportMatches e = []
  · rw [if_pos hm]
    unfold exportReplace
    rw [expGo_of_matGo_nil e.length e (le_refl _) hm]
  · rw [if_neg hm]

/-- Re-importing the export replacement of a brace-free string restores it. -/
theorem importReplace_exportReplace (e : List Char)
    (h1 : ∀ c ∈ e, c ≠ '{') (h2 : ∀ c ∈ e, c ≠ '}') :
    importReplace (exportReplace e) = e := by
  unfold importReplace exportReplace
  exact impGo_expGo e.length e (le_refl _) h1 h2 _ (le_refl _)

/-- C1: Path-parameter round trip. For every internal endpoint string whose
parameters are written `:name` (formalized: the string contains no literal
brace character), the export produces the OpenAPI path key obtained by
replacing every `:name` by the braced name and prefixing a slash, and
re-importing that exported path key (brace replacement back to `:name` plus
leading-slash strip) yields the original internal endpoint string. -/
theorem c1_path_parameter_round_trip (e : List Char)
    (h1 : ∀ c ∈ e, c ≠ '{') (h2 : ∀ c ∈ e, c ≠ '}') :
    exportPathKey e = '/' :: exportReplace e ∧
    importEndpoint (exportPathKey e) = e := by
  refine ⟨exportPathKey_eq e, ?_⟩
  rw [exportPathKey_eq e]
  unfold importEndpoint importReplace
  rw [List.length_cons]
  rw [impGo_succ_cons]
  rw [if_neg (fun h => absurd h.1 (by decide))]
  have hrt : impGo (exportReplace e).length (exportReplace e) = e := by
    unfold exportReplace
    exact impGo_expGo e.length e (le_refl _) h1 h2 _ (le_refl _)
  rw [hrt]
  rfl

/-- C1 witness: the round trip at the claim's concrete endpoint, including
the concrete exported path key. -/
theorem c1_path_parameter_round_trip_witness :
    exportPathKey ("users/:id/orders/:orderId".data) =
      ("/users/{id}/orders/{orderId}".data) ∧
    importEndpoint (exportPathKey ("users/:id/orders/:orderId".data)) =
      ("users/:id/orders/:orderId".data) := by
  have h := c1_path_parameter_round_trip ("users/:id/orders/:orderId".data)
    (by decide) (by decide)
  exact ⟨by decide, h.2⟩

/-- C8: Content-Type default and override in `buildResponseHeaders`: the
first header of the result is always Content-Type; its value is
application/json when the declared content-type list is empty, absent, or
contains application/json, and otherwise is the first entry of the list; in
particular xml-then-json yields application/json and xml alone yields
application/xml. -/
theorem c8_content_type_default_and_override :
    (∀ (cts : Option (List (List Char))) (hdrs : Option (List (List Char))),
      (buildResponseHeaders cts hdrs).head? =
        some (buildHeader ("Content-Type".data) (specContentTypeValue cts))) ∧
    (buildResponseHeaders
        (some [("application/xml".data), ("application/json".data)]) none).head? =
      some (buildHeader ("Content-Type".data) ("application/json".data)) ∧
    (buildResponseHeaders (some [("application/xml".data)]) none).head? =
      some (buildHeader ("Content-Type".data) ("application/xml".data)) := by
  refine ⟨?_, by decide, by decide⟩
  intro cts hdrs
  match cts with
  | none =>
    cases hdrs <;> rfl
  | some l =>
    by_cases hc : l ≠ [] ∧ ¬ l.contains ("application/json".data)
    · have hs : ¬ (l = [] ∨ l.contains ("application/json".data) = true) := by
        push_neg
        exact ⟨hc.1, by simpa using hc.2⟩
      simp only [buildResponseHeaders, specContentTypeValue, if_pos hc, if_neg hs]
      cases hdrs <;> rfl
    · have hs : l = [] ∨ l.contains ("application/json".data) = true := by
        by_contra hn
        push_neg at hn
        exact hc ⟨hn.1, by simpa using hn.2⟩
      simp only [buildResponseHeaders, specContentTypeValue, if_neg hc, if_pos hs]
      cases hdrs <;> rfl

/-- C7 counterexample: for the endpoint carrying the same parameter name
twice, the emitted parameters array has two entries for the single unique
name id, so the array is not one-entry-per-unique-name. -/
theorem c7_export_parameters_counterexample :
    (Option.getD (opParameters ("a/:id/:id".data)) []).map OutParameter.name =
      [("id".data), ("id".data)] ∧
    ¬ ((Option.getD (opParameters ("a/:id/:id".data)) []).map
        OutParameter.name).Nodup := by
  decide

/-- C7 amended: the emitted operation carries a parameters array exactly when
the endpoint has a parameter pattern match, with one entry per match
occurrence (duplicates repeated), each entry being the matched name with
in path, schema type string and required true. -/
theorem c7_export_parameters (env : Environment) (route : Route) :
    (OutOperation.parameters (mkOperation env route) = none ↔
      exportMatches (Route.endpoint route) = []) ∧
    Option.getD (OutOperation.parameters (mkOperation env route)) [] =
      (exportMatches (Route.endpoint route)).map (fun nm =>
        OutParameter.mk nm ("path".data) ("string".data) true) := by
  constructor
  · constructor
    · intro hn
      by_contra hne
      simp [mkOperation, opParameters, hne] at hn
    · intro h
      simp [mkOperation, opParameters, h]
  · by_cases h : exportMatches (Route.endpoint route) = []
    · simp [mkOperation, opParameters, h]
    · simp [mkOperation, opParameters, h]

theorem c3_kept_statusCodes_aux (v : SpecVersion) (op : OAOperation) :
    ∀ rs : List ((List Char) × OAResponse),
      (rs.filterMap (fun kr =>
        match jsParseInt kr.1 with
        | none => none
        | some n =>
          if statusCodes.contains n then some (mkImportedResponse v op kr.2 n)
          else none)).map RouteResponse.statusCode =
      rs.filterMap (fun kr =>
        match jsParseInt kr.1 with
        | none => none
        | some n => if statusCodes.contains n then some n else none) := by
  have hstat : ∀ (resp : OAResponse) (n : Int),
      RouteResponse.statusCode (mkImportedResponse v op resp n) = n :=
    fun _ _ => rfl
  intro rs
  induction rs with
  | nil => rfl
  | cons kr t ih =>
    rw [List.filterMap_cons, List.filterMap_cons]
    cases hk : jsParseInt kr.1 with
    | none =>
      simp only [hk]
      exact ih
    | some n =>
      by_cases hs : statusCodes.contains n = true
      · simp only [hk, hs, if_true, List.map_cons, hstat]
        rw [ih]
      · simp only [hk, hs, if_false]
        exact ih

/-- C3 counterexample: the key 200abc exactly matches no supported integer
status code, yet a RouteResponse carrying status 200 and the key's declared
description is produced for it. -/
theorem c3_status_filtering_counterexample :
    (∀ n ∈ statusCodes, ("200abc".data) ≠ intKey n) ∧
    (opRouteResponses SpecVersion.openapiV3 op200abc).map
        (fun r => (RouteResponse.statusCode r, RouteResponse.label r)) =
      [((200 : Int), ("Hello".data))] := by
  decide

/-- C3 amended: a declared response-status key yields a RouteResponse exactly
when JavaScript parseInt of the key (longest digit prefix) lands in the
supported status-code table, and the produced statusCode is that parsed
value; keys such as 2XX (parses to the unsupported 2), default and abc
(parse to NaN) are dropped, but a key like 200abc is kept as 200. -/
theorem c3_status_filtering (v : SpecVersion) (op : OAOperation) :
    (keptResponses v op).map RouteResponse.statusCode =
      (OAOperation.responses op).filterMap (fun kr =>
        Option.filter (fun n => statusCodes.contains n) (jsParseInt kr.1)) := by
  have hfun : (fun kr : (List Char) × OAResponse =>
      Option.filter (fun n => statusCodes.contains n) (jsParseInt kr.1)) =
      (fun kr : (List Char) × OAResponse =>
        match jsParseInt kr.1 with
        | none => none
        | some n => if statusCodes.contains n then some n else none) := by
    funext kr
    cases jsParseInt kr.1 <;> rfl
  rw [hfun]
  unfold keptResponses
  exact c3_kept_statusCodes_aux v op (OAOperation.responses op)

theorem opRouteResponses_ne_nil (v : SpecVersion) (op : OAOperation) :
    opRouteResponses v op ≠ [] := by
  unfold opRouteResponses
  by_cases h : keptResponses v op = []
  · simp [h]
  · simp only [h, if_false]
    exact h

theorem createRoutes_inner_responses (v : SpecVersion) (rp : List Char) :
    ∀ (items : List ((List Char) × OAOperation)) (acc : List Route),
      (∀ r ∈ acc, Route.responses r ≠ []) →
      ∀ r ∈ items.foldl (fun acc2 pr =>
          if methods.contains pr.1 then acc2 ++ [mkRoute v rp pr.1 pr.2]
          else acc2) acc,
        Route.responses r ≠ [] := by
  intro items
  induction items with
  | nil => intro acc hacc r hr; exact hacc r hr
  | cons pr t ih =>
    intro acc hacc r hr
    rw [List.foldl_cons] at hr
    by_cases hm : methods.contains pr.1 = true
    · rw [if_pos hm] at hr
      refine ih (acc ++ [mkRoute v rp pr.1 pr.2]) ?_ r hr
      intro q hq
      rcases List.mem_append.mp hq with h1 | h1
      · exact hacc q h1
      · rw [List.mem_singleton.mp h1]
        exact opRouteResponses_ne_nil v pr.2
    · rw [if_neg hm] at hr
      exact ih acc hacc r hr

theorem createRoutes_responses_ne_nil (doc : OADocument) (v : SpecVersion) :
    ∀ r ∈ createRoutes doc v, Route.responses r ≠ [] := by
  have main : ∀ (pl : List ((List Char) × List ((List Char) × OAOperation)))
      (acc : List Route),
      (∀ r ∈ acc, Route.responses r ≠ []) →
      ∀ r ∈ pl.foldl (fun acc pi =>
          pi.2.foldl (fun acc2 pr =>
            if methods.contains pr.1 then acc2 ++ [mkRoute v pi.1 pr.1 pr.2]
            else acc2) acc) acc,
        Route.responses r ≠ [] := by
    intro pl
    induction pl with
    | nil => intro acc hacc r hr; exact hacc r hr
    | cons pi t ih =>
      intro acc hacc r hr
      rw [List.foldl_cons] at hr
      exact ih _ (createRoutes_inner_responses v pi.1 pi.2 acc hacc) r hr
  unfold createRoutes
  exact main (OADocument.paths doc) [] (by simp)

/-- C2: Non-empty responses invariant: when all declared response status
keys are filtered out (or none are declared), the resulting route-response
list is exactly one response whose header list is exactly the single
Content-Type application/json header; consequently every Route produced by
the importer has at least one RouteResponse. -/
theorem c2_nonempty_responses_invariant :
    (∀ (v : SpecVersion) (op : OAOperation), keptResponses v op = [] →
      (opRouteResponses v op).length = 1 ∧
      (opRouteResponses v op).map RouteResponse.headers =
        [[buildHeader ("Content-Type".data) ("application/json".data)]]) ∧
    (∀ (doc : OADocument) (v : SpecVersion), ∀ r ∈ createRoutes doc v,
      Route.responses r ≠ []) := by
  constructor
  · intro v op h
    unfold opRouteResponses
    rw [if_pos h]
    constructor <;> rfl
  · intro doc v
    exact createRoutes_responses_ne_nil doc v

/-- C2 witness: the invariant at an operation whose only declared key is the
unsupported range 2XX (so every declared response is filtered out). -/
theorem c2_nonempty_responses_invariant_witness :
    keptResponses SpecVersion.openapiV3 opRange = [] ∧
    (opRouteResponses SpecVersion.openapiV3 opRange).length = 1 ∧
    (opRouteResponses SpecVersion.openapiV3 opRange).map RouteResponse.headers =
      [[buildHeader ("Content-Type".data) ("application/json".data)]] := by
  have h := c2_nonempty_responses_invariant.1 SpecVersion.openapiV3 opRange
    (by decide)
  exact ⟨by decide, h.1, h.2⟩

theorem createRoutes_inner_methods (v : SpecVersion) (rp : List Char) :
    ∀ (items : List ((List Char) × OAOperation)) (acc : List Route),
      (items.foldl (fun acc2 pr =>
        if methods.contains pr.1 then acc2 ++ [mkRoute v rp pr.1 pr.2]
        else acc2) acc).map Route.method =
      acc.map Route.method ++
        (items.map Prod.fst).filter (fun m => methods.contains m) := by
  intro items
  induction items with
  | nil => intro acc; simp
  | cons pr t ih =>
    intro acc
    rw [List.foldl_cons, List.map_cons, List.filter_cons]
    by_cases hm : methods.contains pr.1 = true
    · rw [if_pos hm, if_pos hm, ih (acc ++ [mkRoute v rp pr.1 pr.2])]
      rw [List.map_append, List.append_assoc]
      rfl
    · rw [if_neg hm, if_neg hm, ih acc]

/-- C5 counterexample: the uppercase method key GET case-insensitively
equals the whitelisted get, yet the importer produces no route for it. -/
theorem c5_method_whitelist_counterexample :
    methods.contains (jsToLower ("GET".data)) = true ∧
    createRoutes docUpperGET SpecVersion.openapiV3 = [] := by
  decide

/-- C5 amended: a Route is produced if and only if the path-item key exactly
(case-sensitively) equals one of the lowercase whitelist entries: the
methods of the produced routes are, in order and with multiplicity, the
path-item keys that are contained in the whitelist. -/
theorem c5_method_whitelist (doc : OADocument) (v : SpecVersion) :
    (createRoutes doc v).map Route.method =
      ((OADocument.paths doc).map (fun pi =>
        (pi.2.map Prod.fst).filter (fun m => methods.contains m))).flatten := by
  have main : ∀ (pl : List ((List Char) × List ((List Char) × OAOperation)))
      (acc : List Route),
      (pl.foldl (fun acc pi =>
        pi.2.foldl (fun acc2 pr =>
          if methods.contains pr.1 then acc2 ++ [mkRoute v pi.1 pr.1 pr.2]
          else acc2) acc) acc).map Route.method =
      acc.map Route.method ++
        (pl.map (fun pi =>
          (pi.2.map Prod.fst).filter (fun m => methods.contains m))).flatten := by
    intro pl
    induction pl with
    | nil => intro acc; simp
    | cons pi t ih =>
      intro acc
      rw [List.foldl_cons, List.map_cons, List.flatten_cons, ih]
      rw [createRoutes_inner_methods v pi.1 pi.2 acc]
      rw [List.append_assoc]
  unfold createRoutes
  rw [main (OADocument.paths doc) []]
  rfl

theorem jsObjInsert_of_fresh {β : Type} (m : List ((List Char) × β))
    (k : List Char) (v : β) (h : ∀ p ∈ m, p.1 ≠ k) :
    jsObjInsert m k v = m ++ [(k, v)] := by
  unfold jsObjInsert
  rw [if_neg]
  intro hany
  rcases List.any_eq_true.mp hany with ⟨p, hp, hpk⟩
  exact h p hp (of_decide_eq_true hpk)

theorem jsObjInsert_key_pred {β : Type} (P : List Char → Prop)
    (m : List ((List Char) × β)) (k : List Char) (v : β)
    (hm : ∀ p ∈ m, P p.1) (hk : P k) :
    ∀ p ∈ jsObjInsert m k v, P p.1 := by
  intro p hp
  unfold jsObjInsert at hp
  by_cases h : m.any (fun p => decide (p.1 = k)) = true
  · rw [if_pos h] at hp
    rcases List.mem_map.mp hp with ⟨q, hq, rfl⟩
    by_cases hqk : q.1 = k
    · rw [if_pos hqk]
      exact hk
    · rw [if_neg hqk]
      exact hm q hq
  · rw [if_neg h] at hp
    rcases List.mem_append.mp hp with h1 | h1
    · exact hm p h1
    · rw [List.mem_singleton.mp h1]
      exact hk

theorem exportHeadersObject_no_content_type_aux :
    ∀ (hl : List Header) (acc : List ((List Char) × OutHeaderVal)),
      (∀ kv ∈ acc, jsToLower kv.1 ≠ ("content-type".data)) →
      ∀ kv ∈ hl.foldl (fun hs h =>
          if jsToLower (Header.key h) ≠ ("content-type".data) then
            jsObjInsert hs (Header.key h) ⟨"string".data, Header.value h⟩
          else hs) acc,
        jsToLower kv.1 ≠ ("content-type".data) := by
  intro hl
  induction hl with
  | nil => intro acc hacc kv hkv; exact hacc kv hkv
  | cons h t ih =>
    intro acc hacc kv hkv
    rw [List.foldl_cons] at hkv
    by_cases hc : jsToLower (Header.key h) ≠ ("content-type".data)
    · rw [if_pos hc] at hkv
      exact ih _ (jsObjInsert_key_pred
        (fun k => jsToLower k ≠ ("content-type".data)) acc (Header.key h)
        ⟨"string".data, Header.value h⟩ hacc hc) kv hkv
    · rw [if_neg hc] at hkv
      exact ih acc hacc kv hkv

theorem exportHeadersObject_nodup_aux :
    ∀ (hl : List Header) (acc : List ((List Char) × OutHeaderVal)),
      ((acc.map Prod.fst) ++ (hl.filter keepHeader).map Header.key).Nodup →
      hl.foldl (fun hs h =>
          if jsToLower (Header.key h) ≠ ("content-type".data) then
            jsObjInsert hs (Header.key h) ⟨"string".data, Header.value h⟩
          else hs) acc =
        acc ++ (hl.filter keepHeader).map (fun h =>
          (Header.key h, OutHeaderVal.mk ("string".data) (Header.value h))) := by
  intro hl
  induction hl with
  | nil => intro acc _; simp
  | cons h t ih =>
    intro acc hnd
    rw [List.foldl_cons]
    by_cases hc : jsToLower (Header.key h) ≠ ("content-type".data)
    · have hkeep : keepHeader h = true := decide_eq_true hc
      rw [List.filter_cons, if_pos hkeep, List.map_cons] at hnd ⊢
      have hfresh : ∀ p ∈ acc, p.1 ≠ Header.key h := by
        intro p hp hek
        have hdisj := (List.nodup_append.mp hnd).2.2
        exact hdisj (List.mem_map_of_mem Prod.fst hp)
          (by rw [hek]; exact List.mem_cons_self _ _)
      rw [if_pos hc, jsObjInsert_of_fresh acc (Header.key h)
        ⟨"string".data, Header.value h⟩ hfresh]
      have hnd2 : (((acc ++ [(Header.key h,
          OutHeaderVal.mk ("string".data) (Header.value h))]).map Prod.fst) ++
          (t.filter keepHeader).map Header.key).Nodup := by
        simpa using hnd
      rw [ih (acc ++ [(Header.key h,
        OutHeaderVal.mk ("string".data) (Header.value h))]) hnd2]
      rw [List.append_assoc]
      rfl
    · have hkeep : keepHeader h = false := decide_eq_false hc
      have hknt : ¬ (keepHeader h = true) := by
        rw [hkeep]
        exact Bool.false_ne_true
      rw [List.filter_cons, if_neg hknt] at hnd ⊢
      rw [if_neg hc]
      exact ih acc hnd

/-- C9 counterexample: when an environment header and a response header share
the key X-Powered-By, the exported headers object holds a single entry (the
response value overwrites the environment value), not the two entries of the
filtered concatenation. -/
theorem c9_export_header_projection_counterexample :
    exportHeadersObject [buildHeader ("X-Powered-By".data) ("a".data)]
        [buildHeader ("X-Powered-By".data) ("b".data)] =
      [(("X-Powered-By".data), OutHeaderVal.mk ("string".data) ("b".data))] ∧
    ([buildHeader ("X-Powered-By".data) ("a".data),
      buildHeader ("X-Powered-By".data) ("b".data)].filter keepHeader).map
        (fun h => (Header.key h,
          OutHeaderVal.mk ("string".data) (Header.value h))) =
      [(("X-Powered-By".data), OutHeaderVal.mk ("string".data) ("a".data)),
       (("X-Powered-By".data), OutHeaderVal.mk ("string".data) ("b".data))] ∧
    exportHeadersObject [buildHeader ("X-Powered-By".data) ("a".data)]
        [buildHeader ("X-Powered-By".data) ("b".data)] ≠
      ([buildHeader ("X-Powered-By".data) ("a".data),
        buildHeader ("X-Powered-By".data) ("b".data)].filter keepHeader).map
        (fun h => (Header.key h,
          OutHeaderVal.mk ("string".data) (Header.value h))) := by
  refine ⟨by decide, by decide, by decide⟩

/-- C9 amended: no entry of the exported headers object has a key that
lowercases to content-type, and whenever the kept headers of the
concatenation environment-headers ++ response-headers have pairwise distinct
keys, the object is exactly that filtered concatenation, each header emitted
with schema type string and its value as example (exact-duplicate keys
otherwise collapse, the last value winning). -/
theorem c9_export_header_projection :
    (∀ (envHeaders respHeaders : List Header),
      ∀ kv ∈ exportHeadersObject envHeaders respHeaders,
        jsToLower kv.1 ≠ ("content-type".data)) ∧
    (∀ (envHeaders respHeaders : List Header),
      (((envHeaders ++ respHeaders).filter keepHeader).map Header.key).Nodup →
      exportHeadersObject envHeaders respHeaders =
        ((envHeaders ++ respHeaders).filter keepHeader).map (fun h =>
          (Header.key h, OutHeaderVal.mk ("string".data) (Header.value h)))) := by
  constructor
  · intro envHeaders respHeaders kv hkv
    unfold exportHeadersObject at hkv
    exact exportHeadersObject_no_content_type_aux (envHeaders ++ respHeaders)
      [] (by simp) kv hkv
  · intro envHeaders respHeaders hnd
    unfold exportHeadersObject
    have h := exportHeadersObject_nodup_aux (envHeaders ++ respHeaders) []
      (by simpa using hnd)
    simpa using h

/-- C9 witness: the amended projection at a concrete environment header pair
with distinct keys and a content-type response header that is excluded. -/
theorem c9_export_header_projection_witness :
    exportHeadersObject [buildHeader ("X-Env".data) ("1".data)]
        [buildHeader ("Content-Type".data) ("application/xml".data),
         buildHeader ("X-Resp".data) ("2".data)] =
      [(("X-Env".data), OutHeaderVal.mk ("string".data) ("1".data)),
       (("X-Resp".data), OutHeaderVal.mk ("string".data) ("2".data))] := by
  have h := c9_export_header_projection.2
    [buildHeader ("X-Env".data) ("1".data)]
    [buildHeader ("Content-Type".data) ("application/xml".data),
     buildHeader ("X-Resp".data) ("2".data)] (by decide)
  rw [h]
  decide

/-- C4: Exception containment at the two public entry points: a document
with neither a swagger marker nor a 3.x openapi marker yields no Environment
and exactly one warning notification; any error thrown inside the import
body is converted into exactly one error notification plus one log line with
an undefined result; and export always returns its constructed document,
raising nothing. -/
theorem c4_exception_containment :
    (∀ doc : OADocument, isSwagger doc = false → isOpenAPIV3 doc = false →
      importModel (Except.ok doc) =
        { result := none,
          toasts := [Toast.mk Severity.warning importWrongVersionMsg],
          logs := [] }) ∧
    (∀ (parsed : Except (List Char) OADocument) (m : List Char),
      importBody parsed = Except.error m →
      importModel parsed =
        { result := none,
          toasts := [Toast.mk Severity.error
            (importErrorMsg ++ (": ".data) ++ m)],
          logs := [("Error while importing OpenAPI file: ".data) ++ m] }) ∧
    (∀ env : Environment, ExportResult.result (exportModel env) =
      some (convertToOpenAPIV3 env)) := by
  refine ⟨?_, ?_, fun env => rfl⟩
  · intro doc h1 h2
    simp [importModel, importBody, h1, h2]
  · intro parsed m h
    unfold importModel
    rw [h]

/-- C4 witness: containment at a version-free document, at a rejected parse
and at the default environment. -/
theorem c4_exception_containment_witness :
    importModel (Except.ok docUnversioned) =
      { result := none,
        toasts := [Toast.mk Severity.warning importWrongVersionMsg],
        logs := [] } ∧
    importModel (Except.error ("boom".data)) =
      { result := none,
        toasts := [Toast.mk Severity.error
          (importErrorMsg ++ (": ".data) ++ ("boom".data))],
        logs := [("Error while importing OpenAPI file: ".data) ++
          ("boom".data)] } ∧
    ExportResult.result (exportModel buildEnvironment) =
      some (convertToOpenAPIV3 buildEnvironment) := by
  refine ⟨?_, ?_, c4_exception_containment.2.2 buildEnvironment⟩
  · exact c4_exception_containment.1 docUnversioned (by decide) (by decide)
  · exact c4_exception_containment.2.1 (Except.error ("boom".data))
      ("boom".data) rfl

/-- C6 counterexample: importing an OpenAPI-3 document with no servers array
sets the endpoint prefix to undefined, which differs from the factory
default empty-string prefix, so the prefix is not left unchanged. -/
theorem c6_endpoint_prefix_counterexample :
    (convertFromOpenAPIV3 docNoServers).toOption.map Environment.endpointPrefix =
      some none ∧
    Environment.endpointPrefix buildEnvironment = some [] ∧
    (none : Option (List Char)) ≠ some [] := by
  refine ⟨by decide, by decide, by decide⟩

/-- C6 amended: with servers absent or empty the conversion overwrites the
endpoint prefix with the undefined short-circuit value (it does not keep the
factory default empty string); with a first server entry whose URL is
non-empty, when variable substitution succeeds and the URL parses to a path,
the endpoint prefix becomes that path minus its leading slash. -/
theorem c6_endpoint_prefix :
    (∀ doc : OADocument, OADocument.servers doc = none →
      (convertFromOpenAPIV3 doc).toOption.map Environment.endpointPrefix =
        some none) ∧
    (∀ doc : OADocument, OADocument.servers doc = some [] →
      (convertFromOpenAPIV3 doc).toOption.map Environment.endpointPrefix =
        some none) ∧
    (∀ (doc : OADocument) (srv : OAServer) (rest : List OAServer)
        (u p : List Char),
      OADocument.servers doc = some (srv :: rest) →
      OAServer.url srv ≠ [] →
      serverVarsReplace (OAServer.url srv) (OAServer.variablesDecl srv) =
        Except.ok u →
      urlPath u = some p →
      (convertFromOpenAPIV3 doc).toOption.map Environment.endpointPrefix =
        some (some (removeLeadingSlash p))) := by
  refine ⟨?_, ?_, ?_⟩
  · intro doc hs
    simp [convertFromOpenAPIV3, v3EndpointPrefixE, hs, Except.toOption]
  · intro doc hs
    simp [convertFromOpenAPIV3, v3EndpointPrefixE, hs, Except.toOption]
  · intro doc srv rest u p hs hurl hsv hup
    simp [convertFromOpenAPIV3, v3EndpointPrefixE, hs, hurl, hsv, hup,
      Except.toOption]

/-- C6 witness: the amended statement at a document without servers and at a
document whose single server URL is http-example-com/api/v1. -/
theorem c6_endpoint_prefix_witness :
    (convertFromOpenAPIV3 docNoServers).toOption.map Environment.endpointPrefix =
      some none ∧
    (convertFromOpenAPIV3 docOneServer).toOption.map Environment.endpointPrefix =
      some (some ("api/v1".data)) := by
  constructor
  · exact c6_endpoint_prefix.1 docNoServers rfl
  · have h := c6_endpoint_prefix.2.2 docOneServer
      { url := "http://example.com/api/v1".data, variablesDecl := none } []
      ("http://example.com/api/v1".data) ("/api/v1".data)
      rfl (by decide) rfl rfl
    rw [h]
    decide

/-- C10 counterexample: the Swagger host h:0 has the numeric port segment 0,
but the imported environment keeps the factory default port 3000 because 0
is falsy in the or-chain. -/
theorem c10_swagger_port_counterexample :
    (jsSplit ':' ("h:0".data))[1]? = some ("0".data) ∧
    jsParseInt ("0".data) = some 0 ∧
    Environment.port (convertFromSwagger docHostPort0) = 3000 ∧
    (3000 : Int) ≠ 0 := by
  refine ⟨by decide, by decide, by decide, by decide⟩

/-- C10 amended: for a Swagger document, when the host field is present and
the segment after the first colon parses (via JavaScript parseInt) to a
non-zero number, the environment port is that number; a segment parsing to
zero keeps the factory default port, as does a segment parsing to NaN, a
host without a colon segment, or an absent host field. -/
theorem c10_swagger_port :
    (∀ (doc : OADocument) (h s : List Char) (n : Int),
      OADocument.host doc = some h →
      (jsSplit ':' h)[1]? = some s →
      jsParseInt s = some n → n ≠ 0 →
      Environment.port (convertFromSwagger doc) = n) ∧
    (∀ (doc : OADocument) (h s : List Char),
      OADocument.host doc = some h →
      (jsSplit ':' h)[1]? = some s →
      jsParseInt s = some 0 →
      Environment.port (convertFromSwagger doc) =
        Environment.port buildEnvironment) ∧
    (∀ (doc : OADocument) (h s : List Char),
      OADocument.host doc = some h →
      (jsSplit ':' h)[1]? = some s →
      jsParseInt s = none →
      Environment.port (convertFromSwagger doc) =
        Environment.port buildEnvironment) ∧
    (∀ (doc : OADocument) (h : List Char),
      OADocument.host doc = some h → h ≠ [] →
      (jsSplit ':' h)[1]? = none →
      Environment.port (convertFromSwagger doc) =
        Environment.port buildEnvironment) ∧
    (∀ doc : OADocument, OADocument.host doc = none →
      Environment.port (convertFromSwagger doc) =
        Environment.port buildEnvironment) := by
  refine ⟨?_, ?_, ?_, ?_, ?_⟩
  · intro doc h s n hhost hsplit hparse hzero
    have hne : h ≠ [] := by
      intro heq
      subst heq
      simp [jsSplit] at hsplit
    simp [convertFromSwagger, swaggerPort, hhost, hne, hsplit, hparse, hzero]
  · intro doc h s hhost hsplit hparse
    have hne : h ≠ [] := by
      intro heq
      subst heq
      simp [jsSplit] at hsplit
    simp [convertFromSwagger, swaggerPort, hhost, hne, hsplit, hparse]
  · intro doc h s hhost hsplit hparse
    have hne : h ≠ [] := by
      intro heq
      subst heq
      simp [jsSplit] at hsplit
    simp [convertFromSwagger, swaggerPort, hhost, hne, hsplit, hparse]
  · intro doc h hhost hne hsplit
    simp [convertFromSwagger, swaggerPort, hhost, hne, hsplit]
  · intro doc hhost
    simp [convertFromSwagger, swaggerPort, hhost]

/-- C10 witness: port 8443 is extracted from api-example-com:8443, while the
zero-port host h:0, the non-numeric-port host h:abc and the portless host
all keep the default. -/
theorem c10_swagger_port_witness :
    Environment.port (convertFromSwagger docHost8443) = 8443 ∧
    Environment.port (convertFromSwagger docHostPort0) =
      Environment.port buildEnvironment ∧
    Environment.port (convertFromSwagger docHostNaN) =
      Environment.port buildEnvironment ∧
    Environment.port (convertFromSwagger docHostNoPort) =
      Environment.port buildEnvironment := by
  refine ⟨?_, ?_, ?_, ?_⟩
  · exact c10_swagger_port.1 docHost8443 ("api.example.com:8443".data)
      ("8443".data) 8443 rfl (by decide) (by decide) (by decide)
  · exact c10_swagger_port.2.1 docHostPort0 ("h:0".data) ("0".data)
      rfl (by decide) (by decide)
  · exact c10_swagger_port.2.2.1 docHostNaN ("h:abc".data) ("abc".data)
      rfl (by decide) (by decide)
  · exact c10_swagger_port.2.2.2.1 docHostNoPort ("api.example.com".data)
      rfl (by decide) (by decide)
